import Mathlib

/-!
Verification of the WaveVisualizer rendering/encoding pipeline.

Shallow embedding of the core numeric and control-flow logic of
`src/utils/audio_processor.py`, `src/utils/image_processor.py`,
`src/utils/video_processor.py` and `src/utils/background_processor.py`.
Machine floats are modelled by exact rationals; a float result that is
NaN or infinite is modelled by `none : Option ℚ`; Python exceptions are
modelled by `Except String`.
-/

namespace WaveVisualizer

/-! ### Spectral Analyzer: averaging, responsiveness and min-max normalization
    (audio_processor.py lines 114-119) -/

/-- Minimum of a list of rationals (`np.min`); `np.min` demands a nonempty
array, so the `[]` case value 0 is never used by the claims. -/
def listMin : List ℚ → ℚ
  | [] => 0
  | x :: xs => xs.foldl min x

/-- Maximum of a list of rationals (`np.max`). -/
def listMax : List ℚ → ℚ
  | [] => 0
  | x :: xs => xs.foldl max x

/-- Line 119 of audio_processor.py:
`normalized_amps = (avg - np.min(avg)) / (np.max(avg) - np.min(avg))`.
NumPy float division by a zero denominator yields NaN (0/0) or ±inf,
never a finite number; a bin whose value is non-finite is modelled by
`none`.  The source has no special case for `max = min`. -/
def minmaxNormalize (v : List ℚ) : List (Option ℚ) :=
  let lo := listMin v
  let hi := listMax v
  v.map (fun x => if hi - lo = 0 then none else some ((x - lo) / (hi - lo)))

/-- Line 116 of audio_processor.py: `np.mean(D_db_subset, axis=1) * responsiveness`
applies the responsiveness multiplier elementwise to the per-bin averages. -/
def applyResponsiveness (r : ℚ) (v : List ℚ) : List ℚ :=
  v.map (fun x => x * r)

/-! ### STFT parameters (audio_processor.py line 69) -/

/-- Line 69: `librosa.stft(segment, n_fft=2048, hop_length=512)` — the
transform window size is the constant 2048, whatever the slice length. -/
def stftWindowSize (sliceLen : ℕ) : ℕ := 2048

/-- Line 69: the hop length is the constant 512, whatever the slice length. -/
def stftHopLength (sliceLen : ℕ) : ℕ := 512

/-- Modelled from the spec (§4.1): "transform window size capped at
min(2048, slice length)" — the window size the specification describes,
for comparison with `stftWindowSize`. -/
def stftWindowSizeSpec (sliceLen : ℕ) : ℕ := min 2048 sliceLen

/-! ### Frame Renderer: bar pixel height
    (audio_processor.py lines 150, 157, 159, 163) -/

/-- Lines 157/159: `bar_section_height = img_height * 0.8;
max_bar_height = bar_section_height * 0.8`. -/
def maxBarHeight (imgHeight : ℚ) : ℚ := (imgHeight * (8 / 10)) * (8 / 10)

/-- Lines 150/163: `bars_heights = bars_heights * bar_height_scale` then
`bar_height = height * max_bar_height`; `amp` is the post-smoothing
normalized (and interpolated) amplitude of bar `j`. -/
def barPixelHeight (amp scale imgHeight : ℚ) : ℚ :=
  (amp * scale) * maxBarHeight imgHeight

/-- Modelled from the spec (§4.2): "Bar height for bar j = amplitude[j] ×
image_height × 0.8 × bar_height_scale" — the formula the claim states,
for comparison with `barPixelHeight`. -/
def barPixelHeightSpec (amp scale imgHeight : ℚ) : ℚ :=
  amp * imgHeight * (8 / 10) * scale

/-! ### Dimension Normalizer (image_processor.py lines 26-43) -/

/-- Lines 31-32: `new_width = width if width % 2 == 0 else width - 1`
(and the same for the height). -/
def adjustDim (d : ℕ) : ℕ := if d % 2 = 0 then d else d - 1

/-- Lines 26-43 of image_processor.py, the dimension part of
`ensure_even_dimensions`: even dimensions pass through, odd ones are
truncated by one pixel and the image resized; the claims are about a
decodable image, so the decode-failure branch (returning width = height
= 0) is not reached. -/
def ensureEvenDimensions (w h : ℕ) : ℕ × ℕ := (adjustDim w, adjustDim h)

/-! ### Frame Sequencer: frame count, frame length, segment slicing
    (audio_processor.py lines 46-66) -/

/-- Lines 47-48: `duration = len(y)/sr; n_frames = int(duration * fps)`.
With exact arithmetic, truncating the nonnegative `duration * fps` to an
integer is `⌊lenY * fps / sr⌋`, which is natural-number division. -/
def nFrames (lenY sr fps : ℕ) : ℕ := lenY * fps / sr

/-- Line 54: `frame_length = len(y) // n_frames`.  Python raises
`ZeroDivisionError` when `n_frames = 0`; the exceptional branch is
modelled separately in `pipelineFrameSetup`. -/
def frameLength (lenY nf : ℕ) : ℕ := lenY / nf

/-- Line 60: `start_idx = i * frame_length`. -/
def segStart (L i : ℕ) : ℕ := i * L

/-- Line 61: `end_idx = min((i + 1) * frame_length, len(y))`. -/
def segEnd (lenY L i : ℕ) : ℕ := min ((i + 1) * L) lenY

/-- Lines 59-66: the loop `for i in range(n_frames)` slices the sample
buffer into `y[start_idx:end_idx]`, breaking out as soon as
`start_idx >= len(y)`; the list holds each generated segment's
(start, end) index pair in frame order. -/
def segments (lenY sr fps : ℕ) : List (ℕ × ℕ) :=
  let nf := nFrames lenY sr fps
  let L := frameLength lenY nf
  ((List.range nf).takeWhile (fun i => segStart L i < lenY)).map
    (fun i => (segStart L i, segEnd lenY L i))

/-- Lines 47-54 as the run executes them: compute `n_frames`, then
`frame_length = len(y) // n_frames`.  When `n_frames = 0` Python raises
`ZeroDivisionError`; the outer handler (lines 294-308) only cleans the
frame directory and re-raises, so the error reaches the caller. -/
def pipelineFrameSetup (lenY sr fps : ℕ) : Except String ℕ :=
  let nf := nFrames lenY sr fps
  if nf = 0 then Except.error "ZeroDivisionError" else Except.ok (lenY / nf)

/-! ### Frame Sequencer: inter-frame smoothing
    (audio_processor.py lines 121-132) -/

/-- Line 126: `prev_heights_var * smoothing + normalized_amps * (1 - smoothing)`,
elementwise over the two amplitude vectors. -/
def smoothStep (s : ℚ) (prev cur : List ℚ) : List ℚ :=
  List.zipWith (fun p c => p * s + c * (1 - s)) prev cur

/-- Lines 121-132 for frames after the first: the guard
`i > 0 and smoothing > 0 and prev_heights_var is not None` blends the
current raw vector with the previous frame's final vector, and line 132
stores the blended result as `_prev_heights` for the next frame.  Within
a run the stored vector is never `None` past frame 0. -/
def smoothAux (s : ℚ) : List ℚ → List (List ℚ) → List (List ℚ)
  | _, [] => []
  | prev, cur :: rest =>
    let out := if 0 < s then smoothStep s prev cur else cur
    out :: smoothAux s out rest

/-- The per-run smoothing pass over the raw analyzer outputs, in frame
order: frame 0 fails the `i > 0` guard and keeps its raw vector; every
later frame goes through `smoothAux` carrying the previous output. -/
def smoothFrames (s : ℚ) : List (List ℚ) → List (List ℚ)
  | [] => []
  | first :: rest => first :: smoothAux s first rest

/-! ### Python keyword-argument contract of the pipeline entry point
    (audio_processor.py lines 15-30, background_processor.py lines 76-92) -/

/-- Lines 15-30 of audio_processor.py: the complete parameter list of
`process_audio_visualization`; the signature has no `**kwargs`. -/
def processAudioVisualizationParams : List String :=
  ["audio_path", "image_path", "output_path", "color", "fps",
   "bar_count", "bar_width_ratio", "bar_height_scale", "glow_effect",
   "glow_intensity", "responsiveness", "smoothing", "vertical_position",
   "horizontal_margin"]

/-- Lines 76-92 of background_processor.py: the keyword names
`process_video_task` passes when it calls `process_audio_visualization`. -/
def processVideoTaskCallKwargs : List String :=
  ["audio_path", "image_path", "output_path", "color", "fps",
   "bar_count", "bar_width_ratio", "bar_height_scale", "glow_effect",
   "glow_intensity", "responsiveness", "smoothing", "vertical_position",
   "horizontal_margin", "progress_callback"]

/-- Python call binding for a function without `**kwargs`: the call is
accepted (the body runs) exactly when every supplied keyword is a
declared parameter; otherwise Python raises `TypeError: unexpected
keyword argument` before the body runs. -/
def callAccepts (params kwargs : List String) : Bool :=
  kwargs.all (fun k => params.contains k)

/-! ### Video Encoder: subprocess failure and frame-store cleanup
    (audio_processor.py lines 262-308, video_processor.py lines 107-109) -/

/-- Outcome of the ffmpeg subprocess run with `check=True` (line 262):
either it exits 0, or `subprocess.CalledProcessError` carries the
captured stderr text. -/
inductive EncodeResult where
  | ok : EncodeResult
  | fail (stderr : String) : EncodeResult
deriving DecidableEq

/-- Terminal outcome of the pipeline tail as the caller sees it: the
`return True` of line 292, or a raised exception with its message. -/
inductive RunResult where
  | success : RunResult
  | failure (msg : String) : RunResult
deriving DecidableEq

/-- What happened to the frame store by the time control leaves the
function: `purged` iff the frame files were removed. -/
structure TailOutcome where
  result : RunResult
  framesPurged : Bool
deriving DecidableEq

/-- Lines 262-308 of audio_processor.py, after all frames are rendered.
`removeFails` says whether `os.remove` on a frame file raises.
- Lines 280-282: a non-zero ffmpeg exit is re-raised as
  `Exception("FFmpeg error: " + e.stderr)`; the outer handler (294-308)
  removes the frame files with each `os.remove` wrapped in its own
  try/except that only logs (300-303), then re-raises the original error.
- Lines 288-290 (success path): the frame files are removed with NO local
  try/except; if `os.remove` raises there, the exception falls into the
  outer handler, which logs, best-effort purges, and re-raises it — the
  caller then sees a failure even though the video was encoded.
- Line 292: otherwise the function returns True. -/
def pipelineTail (enc : EncodeResult) (removeFails : Bool) : TailOutcome :=
  match enc with
  | EncodeResult.fail stderr =>
    { result := RunResult.failure ("FFmpeg error: " ++ stderr),
      framesPurged := !removeFails }
  | EncodeResult.ok =>
    if removeFails then
      { result := RunResult.failure "Error removing frame file",
        framesPurged := false }
    else
      { result := RunResult.success, framesPurged := true }

/-- `msg` contains `sub` as a substring. -/
def containsText (msg sub : String) : Prop :=
  ∃ pre post, msg = pre ++ sub ++ post

/-! ## Helper lemmas -/

lemma foldl_min_replicate (n : ℕ) (c : ℚ) : (List.replicate n c).foldl min c = c := by
  induction n with
  | zero => rfl
  | succ k ih => simpa [List.replicate_succ, min_self] using ih

lemma foldl_max_replicate (n : ℕ) (c : ℚ) : (List.replicate n c).foldl max c = c := by
  induction n with
  | zero => rfl
  | succ k ih => simpa [List.replicate_succ, max_self] using ih

lemma listMin_replicate_succ (n : ℕ) (c : ℚ) : listMin (List.replicate (n + 1) c) = c := by
  simpa [listMin, List.replicate_succ] using foldl_min_replicate n c

lemma listMax_replicate_succ (n : ℕ) (c : ℚ) : listMax (List.replicate (n + 1) c) = c := by
  simpa [listMax, List.replicate_succ] using foldl_max_replicate n c

lemma foldl_min_map_mul (r : ℚ) (hr : 0 ≤ r) (xs : List ℚ) :
    ∀ a : ℚ, (xs.map (fun y => y * r)).foldl min (a * r) = xs.foldl min a * r := by
  induction xs with
  | nil => intro a; rfl
  | cons y ys ih =>
    intro a
    simp only [List.map_cons, List.foldl_cons]
    rw [← min_mul_of_nonneg a y hr, ih]

lemma foldl_max_map_mul (r : ℚ) (hr : 0 ≤ r) (xs : List ℚ) :
    ∀ a : ℚ, (xs.map (fun y => y * r)).foldl max (a * r) = xs.foldl max a * r := by
  induction xs with
  | nil => intro a; rfl
  | cons y ys ih =>
    intro a
    simp only [List.map_cons, List.foldl_cons]
    rw [← max_mul_of_nonneg a y hr, ih]

/-! ## Claim theorems -/

/-- C1: the spec requires the min-max normalization step to special-case
`max = min` (silence or a flat slice) and yield a finite constant vector;
the code at audio_processor.py line 119 has no such special case, so on
any all-equal per-bin average vector — in particular the one a silent
all-zero slice produces — the float division is 0/0 and every bin of the
result is NaN (modelled as `none`), not a finite constant. -/
theorem C1_flat_slice_normalization_not_finite (n : ℕ) (c : ℚ) :
    minmaxNormalize (List.replicate (n + 1) c) = List.replicate (n + 1) none := by
  simp [minmaxNormalize, listMin_replicate_succ, listMax_replicate_succ, List.map_replicate]

/-- C2: the claim says the pipeline entry point accepts an optional
`progress_callback` argument and supplying it never fails the run.  In
the code, `process_audio_visualization` (audio_processor.py lines 15-30)
has no `progress_callback` parameter and no `**kwargs`, yet the
production caller `process_video_task` (background_processor.py line 91)
passes `progress_callback=update_progress`; Python therefore raises
`TypeError` before the pipeline body runs, so supplying the callback
makes every such run fail. -/
theorem C2_entry_point_rejects_progress_callback :
    "progress_callback" ∈ processVideoTaskCallKwargs ∧
    "progress_callback" ∉ processAudioVisualizationParams ∧
    callAccepts processAudioVisualizationParams processVideoTaskCallKwargs = false := by
  refine ⟨by decide, by decide, by decide⟩

/-- C3 counterexample: at amplitude 1, bar_height_scale 1 and image
height 100, the rendered bar height is 64 pixels (the code multiplies by
0.8 twice, lines 157 and 159 of audio_processor.py), while the claim's
formula amplitude × image_height × 0.8 × scale gives 80. -/
theorem C3_counterexample :
    barPixelHeight 1 1 100 = 64 ∧ barPixelHeightSpec 1 1 100 = 80 ∧
    barPixelHeight 1 1 100 ≠ barPixelHeightSpec 1 1 100 := by
  refine ⟨by norm_num [barPixelHeight, maxBarHeight],
          by norm_num [barPixelHeightSpec],
          by norm_num [barPixelHeight, maxBarHeight, barPixelHeightSpec]⟩

/-- C3 (amended): the rendered bar's pixel height equals
amplitude[j] × image_height × 0.64 × bar_height_scale — the headroom
factor 0.8 is applied twice (bar_section_height = image_height × 0.8,
then max_bar_height = bar_section_height × 0.8), giving 16/25 = 0.64. -/
theorem C3_bar_height_formula (amp scale imgHeight : ℚ) :
    barPixelHeight amp scale imgHeight = amp * imgHeight * (16 / 25) * scale := by
  unfold barPixelHeight maxBarHeight
  ring

/-- C4 counterexample: for a slice of 1000 samples the claim's window
size is min(2048, 1000) = 1000, but the code (audio_processor.py line
69) always passes the constant `n_fft=2048`. -/
theorem C4_counterexample :
    stftWindowSize 1000 = 2048 ∧ stftWindowSizeSpec 1000 = 1000 ∧
    stftWindowSize 1000 ≠ stftWindowSizeSpec 1000 := by
  refine ⟨rfl, rfl, by decide⟩

/-- C4 (amended): the short-time transform is invoked with a constant
window size of 2048 for every slice (not capped at the slice length),
and a constant hop length of 512, which equals the window size divided
by 4. -/
theorem C4_stft_parameters (sliceLen : ℕ) :
    stftWindowSize sliceLen = 2048 ∧
    stftHopLength sliceLen = stftWindowSize sliceLen / 4 := by
  exact ⟨rfl, by norm_num [stftHopLength, stftWindowSize]⟩

/-- The adjusted dimension is always even. -/
lemma adjustDim_even (d : ℕ) : adjustDim d % 2 = 0 := by
  unfold adjustDim
  split <;> omega

/-- Adjusting an already-adjusted dimension changes nothing. -/
lemma adjustDim_idem (d : ℕ) : adjustDim (adjustDim d) = adjustDim d := by
  show (if adjustDim d % 2 = 0 then adjustDim d else adjustDim d - 1) = adjustDim d
  rw [if_pos (adjustDim_even d)]

/-- C7: for every decodable image the Dimension Normalizer returns even
width and height, leaves an even dimension unchanged, truncates an odd
dimension down by exactly 1 pixel, and is idempotent: applied to its own
output it is the identity. -/
theorem C7_dimension_normalizer (w h : ℕ) :
    ((ensureEvenDimensions w h).1 % 2 = 0 ∧ (ensureEvenDimensions w h).2 % 2 = 0) ∧
    (w % 2 = 0 → (ensureEvenDimensions w h).1 = w) ∧
    (w % 2 = 1 → (ensureEvenDimensions w h).1 = w - 1) ∧
    (h % 2 = 0 → (ensureEvenDimensions w h).2 = h) ∧
    (h % 2 = 1 → (ensureEvenDimensions w h).2 = h - 1) ∧
    ensureEvenDimensions (ensureEvenDimensions w h).1 (ensureEvenDimensions w h).2 =
      ensureEvenDimensions w h := by
  refine ⟨⟨adjustDim_even w, adjustDim_even h⟩, ?_, ?_, ?_, ?_, ?_⟩
  · intro hw; simp [ensureEvenDimensions, adjustDim, hw]
  · intro hw; unfold ensureEvenDimensions adjustDim; simp only; split <;> omega
  · intro hh; simp [ensureEvenDimensions, adjustDim, hh]
  · intro hh; unfold ensureEvenDimensions adjustDim; simp only; split <;> omega
  · show (adjustDim (adjustDim w), adjustDim (adjustDim h)) = (adjustDim w, adjustDim h)
    rw [adjustDim_idem, adjustDim_idem]

/-- C7 witness: the spec's own example image, 641×481, is normalized to
640×480, and the Normalizer is the identity on its own output. -/
theorem C7_dimension_normalizer_witness :
    (ensureEvenDimensions 641 481).1 = 641 - 1 ∧
    (ensureEvenDimensions 641 481).2 = 481 - 1 ∧
    ensureEvenDimensions (ensureEvenDimensions 641 481).1 (ensureEvenDimensions 641 481).2 =
      ensureEvenDimensions 641 481 := by
  obtain ⟨-, -, hw1, -, hh1, hidem⟩ := C7_dimension_normalizer 641 481
  exact ⟨hw1 (by decide), hh1 (by decide), hidem⟩

/-- C8 counterexample: with the encoder succeeding and a single
`os.remove` of a frame file failing, the success-path cleanup loop
(audio_processor.py lines 288-290) has no local try/except, so the
exception falls through to the outer handler and the caller sees a
failure: the frame-deletion failure replaced the primary (success)
result, contrary to the claim's "never replaces the primary result". -/
theorem C8_counterexample :
    pipelineTail EncodeResult.ok true =
      { result := RunResult.failure "Error removing frame file", framesPurged := false } ∧
    (pipelineTail EncodeResult.ok true).result ≠ RunResult.success := by
  refine ⟨rfl, by decide⟩

/-- C8 (amended): when the encoder subprocess exits non-zero the
pipeline raises an error whose message contains the captured stderr,
identically whether or not frame deletion also fails (on the failure
path each `os.remove` is individually wrapped and only logged, so
cleanup trouble never masks the encode error); the frame store is purged
before the error propagates; cleanup also runs on the success path.  The
claim's clause that a deletion failure never replaces the primary result
holds only on the failure path: on the success path an `os.remove`
failure propagates and turns the run into a failure. -/
theorem C8_encode_failure_and_cleanup (stderr : String) :
    (∀ removeFails : Bool,
      (pipelineTail (EncodeResult.fail stderr) removeFails).result =
        RunResult.failure ("FFmpeg error: " ++ stderr)) ∧
    containsText ("FFmpeg error: " ++ stderr) stderr ∧
    (pipelineTail (EncodeResult.fail stderr) false).framesPurged = true ∧
    (pipelineTail EncodeResult.ok false).framesPurged = true ∧
    (pipelineTail EncodeResult.ok false).result = RunResult.success ∧
    (pipelineTail EncodeResult.ok true).result ≠ RunResult.success := by
  refine ⟨fun removeFails => by cases removeFails <;> rfl,
          ⟨"FFmpeg error: ", "", by simp⟩, rfl, rfl, rfl, by decide⟩

/-- C8 witness: with stderr "frame error", the propagated message is
"FFmpeg error: frame error", which contains the stderr text, and a clean
success run returns success. -/
theorem C8_encode_failure_witness :
    (pipelineTail (EncodeResult.fail "frame error") true).result =
      RunResult.failure ("FFmpeg error: " ++ "frame error") ∧
    containsText ("FFmpeg error: " ++ "frame error") "frame error" ∧
    (pipelineTail EncodeResult.ok false).result = RunResult.success := by
  obtain ⟨hfail, hcontains, -, -, hok, -⟩ := C8_encode_failure_and_cleanup "frame error"
  exact ⟨hfail true, hcontains, hok⟩

/-- C9: multiplying the per-bin averages by any positive responsiveness
value before min-max normalization leaves the normalized vector
unchanged — min and max scale by the same positive factor, which cancels
in (x - min)/(max - min) — so responsiveness has no effect on the
Analyzer's output (including the degenerate flat case, where both sides
are all-NaN). -/
theorem C9_responsiveness_has_no_effect (r : ℚ) (hr : 0 < r) (v : List ℚ) :
    minmaxNormalize (applyResponsiveness r v) = minmaxNormalize v := by
  cases v with
  | nil => rfl
  | cons x xs =>
    have hmin : listMin ((x :: xs).map (fun y => y * r)) = listMin (x :: xs) * r := by
      simp only [listMin, List.map_cons]
      exact foldl_min_map_mul r hr.le xs x
    have hmax : listMax ((x :: xs).map (fun y => y * r)) = listMax (x :: xs) * r := by
      simp only [listMax, List.map_cons]
      exact foldl_max_map_mul r hr.le xs x
    unfold minmaxNormalize applyResponsiveness
    rw [hmin, hmax, List.map_map]
    apply List.map_congr_left
    intro a _
    simp only [Function.comp]
    by_cases hflat : listMax (x :: xs) - listMin (x :: xs) = 0
    · have : listMax (x :: xs) * r - listMin (x :: xs) * r = 0 := by
        rw [← sub_mul, hflat, zero_mul]
      simp [hflat, this]
    · have hne : listMax (x :: xs) * r - listMin (x :: xs) * r ≠ 0 := by
        rw [← sub_mul]
        exact mul_ne_zero hflat hr.ne'
      rw [if_neg hne, if_neg hflat]
      congr 1
      rw [← sub_mul, ← sub_mul, mul_div_mul_right _ _ hr.ne']

/-- C9 witness: doubling the responsiveness leaves the normalized vector
of the averages [0, 1, 3] unchanged. -/
theorem C9_responsiveness_witness :
    minmaxNormalize (applyResponsiveness 2 [0, 1, 3]) = minmaxNormalize [0, 1, 3] :=
  C9_responsiveness_has_no_effect 2 (by norm_num) [0, 1, 3]

/-- C10: when duration × fps < 1 the computed frame count
`int(duration * fps)` is 0 and line 54's `frame_length = len(y) // n_frames`
raises `ZeroDivisionError`; the outer handler (lines 294-308) only
cleans the frame directory and re-raises, so the run fails with the raw
arithmetic error rather than returning a well-formed failure result or
an empty video. -/
theorem C10_zero_frames_division_error (lenY sr fps : ℕ) (hsr : 0 < sr)
    (h : (lenY : ℚ) * fps / sr < 1) :
    nFrames lenY sr fps = 0 ∧
    pipelineFrameSetup lenY sr fps = Except.error "ZeroDivisionError" := by
  have hsrQ : (0 : ℚ) < sr := by exact_mod_cast hsr
  have hlt : (lenY : ℚ) * fps < sr := (div_lt_one hsrQ).mp h
  have hltN : lenY * fps < sr := by exact_mod_cast hlt
  have hnf : nFrames lenY sr fps = 0 := Nat.div_eq_of_lt hltN
  refine ⟨hnf, ?_⟩
  unfold pipelineFrameSetup
  simp [hnf]

/-- C10 witness: 10 samples at sample rate 100 with fps 5 give
duration × fps = 0.5 < 1, a frame count of 0, and the division error. -/
theorem C10_zero_frames_witness :
    nFrames 10 100 5 = 0 ∧
    pipelineFrameSetup 10 100 5 = Except.error "ZeroDivisionError" :=
  C10_zero_frames_division_error 10 100 5 (by norm_num) (by norm_num)

/-- Every generated segment start lies inside the sample buffer, so the
loop's `break` guard never fires. -/
lemma segStart_lt_len (lenY nf i : ℕ) (hlen : 0 < lenY) (hi : i < nf) :
    segStart (frameLength lenY nf) i < lenY := by
  unfold segStart frameLength
  rcases Nat.eq_zero_or_pos (lenY / nf) with hL | hL
  · simpa [hL] using hlen
  · calc i * (lenY / nf) < nf * (lenY / nf) := mul_lt_mul_of_pos_right hi hL
      _ = lenY / nf * nf := Nat.mul_comm _ _
      _ ≤ lenY := Nat.div_mul_le_self lenY nf

/-- Within the first `nf` segments the `min` clamp in the end index is
inert: the end of segment `i` is exactly `(i+1) * frame_length`. -/
lemma segEnd_eq (lenY nf i : ℕ) (hi : i + 1 ≤ nf) :
    segEnd lenY (frameLength lenY nf) i = (i + 1) * frameLength lenY nf := by
  unfold segEnd frameLength
  apply min_eq_left
  calc (i + 1) * (lenY / nf) ≤ nf * (lenY / nf) := Nat.mul_le_mul_right _ hi
    _ = lenY / nf * nf := Nat.mul_comm _ _
    _ ≤ lenY := Nat.div_mul_le_self lenY nf

/-- The slicing loop generates exactly one segment per frame index. -/
lemma segments_eq (lenY sr fps : ℕ) (hlen : 0 < lenY) :
    segments lenY sr fps =
      (List.range (nFrames lenY sr fps)).map
        (fun i => (segStart (frameLength lenY (nFrames lenY sr fps)) i,
                   segEnd lenY (frameLength lenY (nFrames lenY sr fps)) i)) := by
  simp only [segments]
  congr 1
  apply List.takeWhile_eq_self_iff.mpr
  intro i hi
  simpa using segStart_lt_len lenY (nFrames lenY sr fps) i hlen (List.mem_range.mp hi)

/-- C5 counterexample: with 25 samples at sample rate 10 and fps 7 the
frame count is 17 and the frame length is 1 sample; the loop renders 17
one-sample segments ending at sample 17, so the 8 trailing samples
(25 − 17) are dropped even though 8 is not below one segment's length —
refuting the claim's "any leftover trailing samples below one segment's
length dropped". -/
theorem C5_counterexample :
    nFrames 25 10 7 = 17 ∧
    frameLength 25 (nFrames 25 10 7) = 1 ∧
    (segments 25 10 7).getLast? = some (16, 17) ∧
    ¬ (25 - 17 < frameLength 25 (nFrames 25 10 7)) := by
  refine ⟨by decide, by decide, by decide, by decide⟩

/-- C5 (amended): frame count = ⌊duration × fps⌋; the slicing loop emits
exactly that many segments (so never more), each segment `i` running
from `i × frame_length` to `(i+1) × frame_length`, hence contiguous and
non-overlapping; the dropped trailing samples number
`len(y) mod n_frames`, which may equal or exceed one segment's length
(frame_length = len(y) div n_frames), as the counterexample shows. -/
theorem C5_frame_sequencer (lenY sr fps : ℕ) (hsr : 0 < sr) (hlen : 0 < lenY)
    (hnf : 0 < nFrames lenY sr fps) :
    nFrames lenY sr fps = Nat.floor ((lenY : ℚ) * fps / sr) ∧
    (segments lenY sr fps).length = nFrames lenY sr fps ∧
    segments lenY sr fps =
      (List.range (nFrames lenY sr fps)).map
        (fun i => (segStart (frameLength lenY (nFrames lenY sr fps)) i,
                   segEnd lenY (frameLength lenY (nFrames lenY sr fps)) i)) ∧
    (∀ i, i + 1 ≤ nFrames lenY sr fps →
      segEnd lenY (frameLength lenY (nFrames lenY sr fps)) i =
        segStart (frameLength lenY (nFrames lenY sr fps)) (i + 1)) ∧
    lenY - nFrames lenY sr fps * frameLength lenY (nFrames lenY sr fps) =
      lenY % nFrames lenY sr fps := by
  refine ⟨?_, ?_, segments_eq lenY sr fps hlen, ?_, ?_⟩
  · rw [show ((lenY : ℚ) * fps) = ((lenY * fps : ℕ) : ℚ) by push_cast; ring,
        Nat.floor_div_eq_div]
    rfl
  · rw [segments_eq lenY sr fps hlen]
    simp
  · intro i hi
    rw [segEnd_eq lenY (nFrames lenY sr fps) i hi]
    rfl
  · have h := Nat.div_add_mod lenY (nFrames lenY sr fps)
    unfold frameLength
    omega

/-- C5 witness: the sequencer facts instantiated at 25 samples, sample
rate 10, fps 7 (frame count 17): 17 segments, segment 3 ends where
segment 4 starts, and 25 mod 17 = 8 trailing samples are dropped. -/
theorem C5_frame_sequencer_witness :
    (segments 25 10 7).length = nFrames 25 10 7 ∧
    segEnd 25 (frameLength 25 (nFrames 25 10 7)) 3 =
      segStart (frameLength 25 (nFrames 25 10 7)) 4 ∧
    25 - nFrames 25 10 7 * frameLength 25 (nFrames 25 10 7) = 25 % nFrames 25 10 7 := by
  obtain ⟨-, hlen2, -, hcont, hdrop⟩ :=
    C5_frame_sequencer 25 10 7 (by decide) (by decide) (by decide)
  exact ⟨hlen2, hcont 3 (by decide), hdrop⟩

/-- With smoothing 0 the blending guard `smoothing > 0` fails and every
frame keeps its raw vector. -/
lemma smoothAux_zero (prev : List ℚ) (l : List (List ℚ)) : smoothAux 0 prev l = l := by
  induction l generalizing prev with
  | nil => rfl
  | cons cur rest ih => simp only [smoothAux, if_neg (lt_irrefl (0 : ℚ)), ih]

/-- The recurrence of the carried smoothing state: for positive
smoothing, each later output is the blend of the previous output with
the raw vector at that index. -/
lemma smoothAux_get_succ (s : ℚ) (hs : 0 < s) (prev : List ℚ) (l : List (List ℚ))
    (i : ℕ) (hi : i + 1 < l.length) :
    (smoothAux s prev l).get? (i + 1) =
      Option.bind ((smoothAux s prev l).get? i)
        (fun p => Option.map (fun c => smoothStep s p c) (l.get? (i + 1))) := by
  induction l generalizing prev i with
  | nil => simp at hi
  | cons cur rest ih =>
    cases i with
    | zero =>
      cases rest with
      | nil => simp at hi
      | cons c2 r2 => simp [smoothAux, hs]
    | succ j =>
      have hj : j + 1 < rest.length := by simpa using hi
      simp only [smoothAux, if_pos hs, List.get?_cons_succ]
      simpa using ih (smoothStep s prev cur) j hj

/-- C6: within a run, frame 0's output vector is its raw analyzer
output; for smoothing s with 0 < s < 1, frame i+1's output is the
elementwise blend prev × s + current × (1 − s) of frame i's final
(post-smoothing) vector with frame i+1's raw vector; and with s = 0
every frame's output equals its raw analyzer output. -/
theorem C6_smoothing_recurrence (s : ℚ) (raws : List (List ℚ)) :
    (smoothFrames s raws).head? = raws.head? ∧
    (0 < s → s < 1 → ∀ i, i + 1 < raws.length →
      (smoothFrames s raws).get? (i + 1) =
        Option.bind ((smoothFrames s raws).get? i)
          (fun p => Option.map (fun c => smoothStep s p c) (raws.get? (i + 1)))) ∧
    smoothFrames 0 raws = raws := by
  refine ⟨?_, ?_, ?_⟩
  · cases raws with
    | nil => rfl
    | cons first rest => rfl
  · intro hs _ i hi
    cases raws with
    | nil => simp at hi
    | cons first rest =>
      cases i with
      | zero =>
        cases rest with
        | nil => simp at hi
        | cons c2 r2 => simp [smoothFrames, smoothAux, hs]
      | succ j =>
        have hj : j + 1 < rest.length := by simpa using hi
        simp only [smoothFrames, List.get?_cons_succ]
        simpa using smoothAux_get_succ s hs first rest j hj
  · cases raws with
    | nil => rfl
    | cons first rest => simp only [smoothFrames, smoothAux_zero]

/-- C6 witness: with smoothing 1/2 over raw frames [1], [3], [5], frame
0 keeps its raw vector, frame 1 satisfies the blend recurrence, and with
smoothing 0 the output equals the raw sequence. -/
theorem C6_smoothing_witness :
    (smoothFrames (1/2) [[1], [3], [5]]).head? = [[(1 : ℚ)], [3], [5]].head? ∧
    (smoothFrames (1/2) [[1], [3], [5]]).get? 1 =
      Option.bind ((smoothFrames (1/2) [[1], [3], [5]]).get? 0)
        (fun p => Option.map (fun c => smoothStep (1/2) p c) ([[(1 : ℚ)], [3], [5]].get? 1)) ∧
    smoothFrames 0 [[(1 : ℚ)], [3], [5]] = [[1], [3], [5]] := by
  obtain ⟨h0, hrec, -⟩ := C6_smoothing_recurrence (1/2) [[(1 : ℚ)], [3], [5]]
  obtain ⟨-, -, hz⟩ := C6_smoothing_recurrence 0 [[(1 : ℚ)], [3], [5]]
  exact ⟨h0, hrec (by norm_num) (by norm_num) 0 (by decide), hz⟩

end WaveVisualizer
